import Mathlib

/-!
Verification of the concurrent Mandelbrot raster engine in `src/main.go`
(repository gomandelbrotsdl2).

Conventions of the embedding:

* `src/main.go` contains two concatenated translation units; the second one
  (the version with the byte framebuffer `Pixels`, lines 230-510) is the
  program all definitions below are translated from.  The stale first unit
  differs only in plumbing and in its initial `Settings` literal, which is
  also recorded below for reference.
* Go `float64` arithmetic is modelled exactly: by `ℚ` for the field
  operations (`+`, `-`, `*`, `/`, comparisons) and by `ℝ` where `math.Sqrt`
  occurs.  All values the program computes are far from overflow and from
  subnormals, so exact arithmetic is the intended reading of the spec
  ("real-number bounds").
* Go's value-truncating conversions are explicit: `goInt` is `int(x)` /
  `uint64(x)` on an in-range `float64` (truncation toward zero), and
  `goUint8` is `uint8(x)` as the standard gc toolchain compiles it
  (truncation to an integer, keeping the low 8 bits; the Go specification
  leaves the out-of-range case implementation-dependent).
* Go evaluates untyped constant expressions before conversion, so the
  argument `255/2` at line 377 is the integer constant `127`, not `127.5`;
  the embedding keeps that constant as `((255 / 2 : ℤ) : ℚ)`.
-/

namespace Mandelbrot

/-- Go's `int(x)` (and `uint64(x)`) conversion of a `float64`: truncation
toward zero.  On `ℚ` this is `num.tdiv den`. -/
def goInt (q : ℚ) : ℤ := Int.tdiv q.num q.den

/-- Go's `uint8(x)` conversion of a `float64` as compiled by the gc
toolchain: truncate toward zero to an integer and keep the low 8 bits. -/
def goUint8 (q : ℚ) : ℤ := goInt q % 256

/-- Truncation toward zero on `ℝ`, for the `math.Sqrt` channel. -/
noncomputable def goIntR (x : ℝ) : ℤ := if x < 0 then -⌊-x⌋ else ⌊x⌋

/-- Go's `uint8(x)` conversion of a real-valued `float64`. -/
noncomputable def goUint8R (x : ℝ) : ℤ := goIntR x % 256

/-- `type Point struct` (lines 241-247): a pixel coordinate plus its three
8-bit colour channels (channel values are kept as integers; every value the
program stores is in `[0, 255]`). -/
structure Point where
  X : ℚ
  Y : ℚ
  Red : ℤ
  Green : ℤ
  Blue : ℤ
deriving DecidableEq

/-- `type Settings struct` (lines 249-256): the viewport configuration. -/
structure Settings where
  Width : ℚ
  Height : ℚ
  Min : ℚ
  Max : ℚ
  MaxIterations : ℤ
  Center : Point
deriving DecidableEq

/-- The initial configuration built in `main` (lines 401-411). -/
def defaultSettings : Settings :=
  { Width := 800
    Height := 800
    Min := -2.84
    Max := 2.0
    MaxIterations := 200
    Center := { X := 0.5, Y := 0.0, Red := 0, Green := 0, Blue := 0 } }

/-- The initial configuration of the stale first translation unit
(lines 135-145); it differs from `defaultSettings` only in `Min`/`Max`. -/
def defaultSettingsV0 : Settings :=
  { Width := 800
    Height := 800
    Min := -1.00
    Max := 1.00
    MaxIterations := 200
    Center := { X := 0.5, Y := 0.0, Red := 0, Green := 0, Blue := 0 } }

/-- `mapToRange` (lines 323-325). -/
def mapToRange (val in_min in_max out_min out_max : ℚ) : ℚ :=
  (val - in_min) * (out_max - out_min) / (in_max - in_min) + out_min

/-- `mapToRange` over `ℝ`, for the one call whose argument involves
`math.Sqrt` (line 378). -/
noncomputable def mapToRangeR (val in_min in_max out_min out_max : ℝ) : ℝ :=
  (val - in_min) * (out_max - out_min) / (in_max - in_min) + out_min

/-- One pass of the loop body in `mandelbrotWorker` (lines 360-363):
`x1 := x*x - y*y; y1 := 2*x*y; x = x1 + x0; y = y1 + y0`. -/
def mandelStep (x0 y0 : ℚ) (p : ℚ × ℚ) : ℚ × ℚ :=
  (p.1 * p.1 - p.2 * p.2 + x0, 2 * p.1 * p.2 + y0)

/-- The `for z` loop of `mandelbrotWorker` (lines 357-369), fuelled by the
number of remaining values of `z`: update the point, break as soon as
`x + y > 2`, otherwise `iters += 1` and continue.  Returns the final point
and `iters`. -/
def mandelLoop (x0 y0 : ℚ) : ℚ × ℚ → ℤ → ℕ → (ℚ × ℚ) × ℤ
  | p, iters, 0 => (p, iters)
  | p, iters, fuel + 1 =>
    let q := mandelStep x0 y0 p
    if 2 < q.1 + q.2 then (q, iters) else mandelLoop x0 y0 q (iters + 1) fuel

/-- The centred starting abscissa of `mandelbrotWorker` (lines 348-355):
`x := mapToRange(i, 0, Width, Min, Max); x = x - Center.X; x0 := x`. -/
def workerX0 (pt : Point) (s : Settings) : ℚ :=
  mapToRange pt.X 0 s.Width s.Min s.Max - s.Center.X

/-- The centred starting ordinate of `mandelbrotWorker` (lines 349-356). -/
def workerY0 (pt : Point) (s : Settings) : ℚ :=
  mapToRange pt.Y 0 s.Height s.Min s.Max - s.Center.Y

/-- The full iteration of `mandelbrotWorker` for one pixel: the loop runs
while `z < MaxIterations`, i.e. `MaxIterations.toNat` times at most. -/
def workerLoop (pt : Point) (s : Settings) : (ℚ × ℚ) × ℤ :=
  mandelLoop (workerX0 pt s) (workerY0 pt s) (workerX0 pt s, workerY0 pt s) 0
    s.MaxIterations.toNat

/-- The `iters` count `mandelbrotWorker` ends the loop with. -/
def workerIters (pt : Point) (s : Settings) : ℤ := (workerLoop pt s).2

/-- The normalized level `col` (lines 371-374): map `iters` to `[0, 255]`
and floor it to `0` when `iters == MaxIterations` or `col < 20`. -/
def workerCol (pt : Point) (s : Settings) : ℚ :=
  let col := mapToRange ((workerIters pt s : ℚ)) 0 ((s.MaxIterations : ℚ)) 0 255
  if workerIters pt s = s.MaxIterations ∨ col < 20 then 0 else col

/-- The red remap (line 376): `mapToRange(col*col, 0, 255*255, 0, 255)`. -/
def channelRed (col : ℚ) : ℚ := mapToRange (col * col) 0 (255 * 255) 0 255

/-- The green remap (line 377): `mapToRange(col/2, 0, 255/2, 0, 255)`.
Go evaluates the untyped constant `255/2` with integer division, so the
third argument is the constant `127`, kept here as `((255 / 2 : ℤ) : ℚ)`. -/
def channelGreen (col : ℚ) : ℚ := mapToRange (col / 2) 0 ((255 / 2 : ℤ) : ℚ) 0 255

/-- The blue remap (line 378): `mapToRange(math.Sqrt(col), 0,
math.Sqrt(255), 0, 255)`, over `ℝ` because of the square roots. -/
noncomputable def channelBlue (col : ℚ) : ℝ :=
  mapToRangeR (Real.sqrt (col : ℝ)) 0 (Real.sqrt 255) 0 255

/-- `mandelbrotWorker` (lines 342-388) as the pure evaluator it is: the
`Point` it sends on the `jobs` channel for the input pixel. -/
noncomputable def mandelbrotWorker (pt : Point) (s : Settings) : Point :=
  { X := pt.X
    Y := pt.Y
    Red := goUint8 (channelRed (workerCol pt s))
    Green := goUint8 (channelGreen (workerCol pt s))
    Blue := goUint8R (channelBlue (workerCol pt s)) }

/-- The six mutation keys the event loop of `main` reacts to
(lines 462-492): the four pans and the two zooms. -/
inductive KeyEvent
  | left
  | right
  | down
  | up
  | equals
  | minus
deriving DecidableEq

/-- One `KeyboardEvent` branch of the event loop (lines 462-492): each of
the six keys mutates `settings` in place and sets `updateTexture = true`. -/
def applyKey (s : Settings) (updTex : Bool) (k : KeyEvent) : Settings × Bool :=
  match k with
  | .left => ({ s with Center := { s.Center with X := s.Center.X - 0.05 } }, true)
  | .right => ({ s with Center := { s.Center with X := s.Center.X + 0.05 } }, true)
  | .down => ({ s with Center := { s.Center with Y := s.Center.Y + 0.05 } }, true)
  | .up => ({ s with Center := { s.Center with Y := s.Center.Y - 0.05 } }, true)
  | .equals =>
    ({ s with Min := s.Min + 0.15, Max := s.Max - 0.1,
              MaxIterations := s.MaxIterations + 5 }, true)
  | .minus =>
    ({ s with Min := s.Min - 0.15, Max := s.Max + 0.1,
              MaxIterations := s.MaxIterations - 5 }, true)

/-- A whole sequence of key events applied to a configuration. -/
def applyKeys (s : Settings) (ks : List KeyEvent) : Settings :=
  ks.foldl (fun a k => (applyKey a true k).1) s

/-- The configuration invariant stated in the spec (section 3):
`planeMax > planeMin`, `maxIterations >= 1`, `width, height >= 1`. -/
def Inv (s : Settings) : Prop :=
  s.Min < s.Max ∧ 1 ≤ s.MaxIterations ∧ 1 ≤ s.Width ∧ 1 ≤ s.Height

/-- The four pan keys (the ones that only move `Center`). -/
def IsPan (k : KeyEvent) : Prop :=
  k = .left ∨ k = .right ∨ k = .down ∨ k = .up

/-- The configuration reached from the default one by 20 zoom-in events. -/
def zoomIn20 : Settings := applyKeys defaultSettings (List.replicate 20 .equals)

/-- The configuration reached from the default one by 40 zoom-out events. -/
def zoomOut40 : Settings := applyKeys defaultSettings (List.replicate 40 .minus)

/-- The state the run loop of `main` (lines 448-509) carries between
presentation ticks: the configuration, the `updateTexture` flag and, for
bookkeeping, how many render passes have been dispatched so far. -/
structure LoopState where
  settings : Settings
  updateTexture : Bool
  rendersDispatched : ℕ
deriving DecidableEq

/-- The state on entry to the run loop: `main` sets `updateTexture := false`
(line 449) after having called `Init` and `ForceRender` unconditionally
(lines 445-446), hence one pass already dispatched. -/
def loopInit : LoopState :=
  { settings := defaultSettings, updateTexture := false, rendersDispatched := 1 }

/-- The event-polling loop at the top of a tick: fold the pending key
events over the configuration and the flag. -/
def processEvents (s : Settings) (updTex : Bool) (evs : List KeyEvent) :
    Settings × Bool :=
  evs.foldl (fun a k => applyKey a.1 a.2 k) (s, updTex)

/-- One presentation tick of the run loop (lines 450-509): poll the events,
then, if `updateTexture` is set, call `ForceRender` (counted in
`rendersDispatched`) and clear the flag in the same tick. -/
def loopTick (st : LoopState) (evs : List KeyEvent) : LoopState :=
  let p := processEvents st.settings st.updateTexture evs
  if p.2 then
    { settings := p.1, updateTexture := false,
      rendersDispatched := st.rendersDispatched + 1 }
  else
    { settings := p.1, updateTexture := p.2,
      rendersDispatched := st.rendersDispatched }

/-- `type MandelbrotImage struct` (lines 258-265), without the mutex and
the channel (pure plumbing): the framebuffer and its dimensions. -/
structure MandelbrotImage where
  Width : ℚ
  Height : ℚ
  Pixels : List ℤ
  settings : Settings

/-- `NewMandelbrotImage` (lines 267-275): a zeroed byte buffer of length
`int(width*height*4)`. -/
def NewMandelbrotImage (width height : ℚ) (s : Settings) : MandelbrotImage :=
  { Width := width
    Height := height
    Pixels := List.replicate (goInt (width * height * 4)).toNat 0
    settings := s }

/-- The `for i` loop of `Init` (lines 278-284): while `i < bound`, zero the
four bytes at `i, i+1, i+2, i+3` and step `i` by 4. -/
def initLoop (px : List ℤ) (i bound : ℕ) : List ℤ :=
  if i < bound then
    initLoop ((((px.set i 0).set (i + 1) 0).set (i + 2) 0).set (i + 3) 0)
      (i + 4) bound
  else px
termination_by bound - i
decreasing_by omega

/-- `Init` (lines 277-285): the loop bound is `uint64(Width*Height)` - one
quarter of the buffer length. -/
def MandelbrotImage.Init (mi : MandelbrotImage) : MandelbrotImage :=
  { mi with Pixels := initLoop mi.Pixels 0 (goInt (mi.Width * mi.Height)).toNat }

/-- `DrawPoint` (lines 287-296): write the pixel's four bytes at the
row-major offset `int(Y)*int(Width)*4 + int(X)*4`, alpha fixed at 255. -/
def DrawPoint (mi : MandelbrotImage) (point : Point) : MandelbrotImage :=
  let idx := (goInt point.Y * goInt mi.Width * 4 + goInt point.X * 4).toNat
  { mi with
    Pixels :=
      ((((mi.Pixels.set idx point.Red).set (idx + 1) point.Green).set
        (idx + 2) point.Blue).set (idx + 3) 255) }

/-- Orbit of the quadratic map: the running point after `n` completed loop
updates, starting from `(x0, y0)`. -/
def mandelOrbit (x0 y0 : ℚ) (n : ℕ) : ℚ × ℚ := (mandelStep x0 y0)^[n] (x0, y0)

/-- The break test of the loop (line 365): `x + y > 2`. -/
def escapes (p : ℚ × ℚ) : Prop := 2 < p.1 + p.2

instance (p : ℚ × ℚ) : Decidable (escapes p) :=
  inferInstanceAs (Decidable (2 < p.1 + p.2))

/-- A tiny configuration used to instantiate theorems on concrete input:
one pixel, a collapsed plane window, a single iteration. -/
def unitSettings : Settings :=
  { Width := 1
    Height := 1
    Min := 0
    Max := 0
    MaxIterations := 1
    Center := { X := 0, Y := 0, Red := 0, Green := 0, Blue := 0 } }

/-- The pixel `(0, 0)` with zeroed channels. -/
def pt0 : Point := { X := 0, Y := 0, Red := 0, Green := 0, Blue := 0 }

/-- C6: the initial configuration at startup is `width = 800`,
`height = 800`, `planeMin = -2.84`, `planeMax = 2.0`,
`maxIterations = 200`, `center = (0.5, 0.0)` (lines 401-411). -/
theorem c6_default_configuration :
    defaultSettings.Width = 800 ∧ defaultSettings.Height = 800 ∧
    defaultSettings.Min = -2.84 ∧ defaultSettings.Max = 2.0 ∧
    defaultSettings.MaxIterations = 200 ∧
    defaultSettings.Center.X = 0.5 ∧ defaultSettings.Center.Y = 0.0 :=
  ⟨rfl, rfl, rfl, rfl, rfl, rfl, rfl⟩

/-- C5: each directional pan event adjusts `Center.X` or `Center.Y` by
exactly 0.05 in the key's direction; a zoom-in (`=` key) adds 0.15 to
`Min`, subtracts 0.10 from `Max` and adds 5 to `MaxIterations`; a zoom-out
(`-` key) is the exact inverse; and every one of the six mutations sets the
recompute flag `updateTexture` to `true`, whatever its previous value. -/
theorem c5_input_mutations (s : Settings) (f : Bool) :
    applyKey s f .left
      = ({ s with Center := { s.Center with X := s.Center.X - 0.05 } }, true) ∧
    applyKey s f .right
      = ({ s with Center := { s.Center with X := s.Center.X + 0.05 } }, true) ∧
    applyKey s f .down
      = ({ s with Center := { s.Center with Y := s.Center.Y + 0.05 } }, true) ∧
    applyKey s f .up
      = ({ s with Center := { s.Center with Y := s.Center.Y - 0.05 } }, true) ∧
    applyKey s f .equals
      = ({ s with Min := s.Min + 0.15, Max := s.Max - 0.1,
                  MaxIterations := s.MaxIterations + 5 }, true) ∧
    applyKey s f .minus
      = ({ s with Min := s.Min - 0.15, Max := s.Max + 0.1,
                  MaxIterations := s.MaxIterations - 5 }, true) :=
  ⟨rfl, rfl, rfl, rfl, rfl, rfl⟩

/-- C2, counterexample: the input handler performs no clamping or
rejection at all - starting from the default configuration, which
satisfies the invariant, 20 zoom-in events leave `Max < Min`, a degenerate
configuration, so the mutations do not preserve the invariant. -/
theorem c2_counterexample : Inv defaultSettings ∧ ¬ Inv zoomIn20 := by
  constructor
  · refine ⟨by norm_num [defaultSettings], by norm_num [defaultSettings],
      by norm_num [defaultSettings], by norm_num [defaultSettings]⟩
  · intro h
    have h1 := h.1
    norm_num [zoomIn20, applyKeys, defaultSettings, applyKey,
      List.replicate, List.foldl] at h1

set_option maxRecDepth 4000 in
/-- C2, amended: pan events do preserve the invariant (they only move
`Center`), but the zoom events apply their fixed deltas unconditionally,
with no clamping and no refusal, so the invariant is not preserved in
general: from the default configuration, 20 zoom-in events produce
`Max < Min` and 40 zoom-out events produce `MaxIterations = 0`. -/
theorem c2_amended :
    (∀ (s : Settings) (f : Bool) (k : KeyEvent),
      IsPan k → Inv s → Inv (applyKey s f k).1) ∧
    zoomIn20.Max < zoomIn20.Min ∧
    zoomOut40.MaxIterations = 0 := by
  refine ⟨?_, ?_, ?_⟩
  · rintro s f k (rfl | rfl | rfl | rfl) hs <;>
      exact ⟨hs.1, hs.2.1, hs.2.2.1, hs.2.2.2⟩
  · norm_num [zoomIn20, applyKeys, defaultSettings, applyKey,
      List.replicate, List.foldl]
  · norm_num [zoomOut40, applyKeys, defaultSettings, applyKey,
      List.replicate, List.foldl]

/-- C2, witness: the amended theorem applied to a concrete pan event on
the default configuration. -/
theorem c2_witness : Inv (applyKey defaultSettings false .left).1 :=
  c2_amended.1 defaultSettings false .left (Or.inl rfl)
    ⟨by norm_num [defaultSettings], by norm_num [defaultSettings],
     by norm_num [defaultSettings], by norm_num [defaultSettings]⟩

/-- C3, counterexample: the recompute trigger does not start in the dirty
state - `main` enters the run loop with `updateTexture = false`
(line 449); the first frame is computed only because `ForceRender` is
called unconditionally before the loop (line 446). -/
theorem c3_counterexample : loopInit.updateTexture = false := rfl

/-- C3, amended: the flag starts clear, and the very first frame is
computed by the unconditional pre-loop dispatch (`rendersDispatched = 1`
on loop entry); thereafter each presentation tick dispatches a fresh pass
if and only if the flag is set once the tick's events are processed, and
clears the flag in the same tick as the dispatch, without awaiting the
pass (in the source, `ForceRender` returns after spawning its workers and
performs its `wg.Wait` in a detached goroutine, lines 313-315). -/
theorem c3_amended (st : LoopState) (evs : List KeyEvent) :
    loopInit.updateTexture = false ∧
    loopInit.rendersDispatched = 1 ∧
    (loopTick st evs).updateTexture = false ∧
    (loopTick st evs).rendersDispatched =
      (if (processEvents st.settings st.updateTexture evs).2 then
        st.rendersDispatched + 1 else st.rendersDispatched) := by
  have hdef : loopTick st evs =
      (if (processEvents st.settings st.updateTexture evs).2 then
        { settings := (processEvents st.settings st.updateTexture evs).1,
          updateTexture := false,
          rendersDispatched := st.rendersDispatched + 1 }
      else
        { settings := (processEvents st.settings st.updateTexture evs).1,
          updateTexture := (processEvents st.settings st.updateTexture evs).2,
          rendersDispatched := st.rendersDispatched }) := rfl
  refine ⟨rfl, rfl, ?_, ?_⟩ <;> rw [hdef] <;>
    cases hp : (processEvents st.settings st.updateTexture evs).2 <;> simp [hp]

/-- One more update of the orbit is one more application of the loop
body. -/
theorem mandelOrbit_succ (x0 y0 : ℚ) (n : ℕ) :
    mandelOrbit x0 y0 (n + 1) = mandelStep x0 y0 (mandelOrbit x0 y0 n) :=
  Function.iterate_succ_apply' (mandelStep x0 y0) n (x0, y0)

/-- If no orbit point within reach of the remaining fuel passes the break
test, the loop spends all its fuel and counts every iteration. -/
theorem mandelLoop_no_escape (x0 y0 : ℚ) (fuel : ℕ) :
    ∀ (n : ℕ) (iters : ℤ),
      (∀ k, n < k → k ≤ n + fuel → ¬ escapes (mandelOrbit x0 y0 k)) →
      (mandelLoop x0 y0 (mandelOrbit x0 y0 n) iters fuel).2 = iters + fuel := by
  induction fuel with
  | zero => intro n iters _; simp [mandelLoop]
  | succ f ih =>
    intro n iters hno
    have hq : mandelStep x0 y0 (mandelOrbit x0 y0 n) = mandelOrbit x0 y0 (n + 1) :=
      (mandelOrbit_succ x0 y0 n).symm
    have hne : ¬ escapes (mandelOrbit x0 y0 (n + 1)) :=
      hno (n + 1) (by omega) (by omega)
    have hunf : mandelLoop x0 y0 (mandelOrbit x0 y0 n) iters (f + 1)
        = (if 2 < (mandelStep x0 y0 (mandelOrbit x0 y0 n)).1 +
              (mandelStep x0 y0 (mandelOrbit x0 y0 n)).2 then
            (mandelStep x0 y0 (mandelOrbit x0 y0 n), iters)
          else
            mandelLoop x0 y0 (mandelStep x0 y0 (mandelOrbit x0 y0 n))
              (iters + 1) f) := rfl
    rw [hunf, hq,
      if_neg (show ¬ 2 < (mandelOrbit x0 y0 (n + 1)).1 +
        (mandelOrbit x0 y0 (n + 1)).2 from hne),
      ih (n + 1) (iters + 1) (fun k hk1 hk2 => hno k (by omega) (by omega))]
    push_cast
    ring

/-- If the orbit first passes the break test at update `m` and the fuel
reaches that far, the loop stops there having counted `m - 1`
iterations beyond the `iters` it started with. -/
theorem mandelLoop_escape (x0 y0 : ℚ) (fuel : ℕ) :
    ∀ (n : ℕ) (iters : ℤ) (m : ℕ),
      n < m → m ≤ n + fuel → escapes (mandelOrbit x0 y0 m) →
      (∀ k, n < k → k < m → ¬ escapes (mandelOrbit x0 y0 k)) →
      (mandelLoop x0 y0 (mandelOrbit x0 y0 n) iters fuel).2
        = iters + (m : ℤ) - (n : ℤ) - 1 := by
  induction fuel with
  | zero => intro n iters m h1 h2 _ _; omega
  | succ f ih =>
    intro n iters m h1 h2 hesc hmin
    have hq : mandelStep x0 y0 (mandelOrbit x0 y0 n) = mandelOrbit x0 y0 (n + 1) :=
      (mandelOrbit_succ x0 y0 n).symm
    have hunf : mandelLoop x0 y0 (mandelOrbit x0 y0 n) iters (f + 1)
        = (if 2 < (mandelStep x0 y0 (mandelOrbit x0 y0 n)).1 +
              (mandelStep x0 y0 (mandelOrbit x0 y0 n)).2 then
            (mandelStep x0 y0 (mandelOrbit x0 y0 n), iters)
          else
            mandelLoop x0 y0 (mandelStep x0 y0 (mandelOrbit x0 y0 n))
              (iters + 1) f) := rfl
    rw [hunf, hq]
    by_cases hm : m = n + 1
    · subst hm
      rw [if_pos (show 2 < (mandelOrbit x0 y0 (n + 1)).1 +
        (mandelOrbit x0 y0 (n + 1)).2 from hesc)]
      push_cast
      ring
    · have hne : ¬ escapes (mandelOrbit x0 y0 (n + 1)) :=
        hmin (n + 1) (by omega) (by omega)
      rw [if_neg (show ¬ 2 < (mandelOrbit x0 y0 (n + 1)).1 +
          (mandelOrbit x0 y0 (n + 1)).2 from hne),
        ih (n + 1) (iters + 1) m (by omega) (by omega) hesc
          (fun k hk1 hk2 => hmin k (by omega) hk2)]
      push_cast
      ring

/-- C1: for a pixel `(i, j)` in range and `MaxIterations >= 1`, the
evaluator's starting point is the linear map of `i` (resp. `j`) from
`[0, Width)` (resp. `[0, Height)`) to `[Min, Max]` minus the center
offset, and its `iters` count is characterised by the break test
`x + y > 2`: if no update among the first `MaxIterations` passes the
test, `iters = MaxIterations`; if update `m` is the first to pass it,
the loop breaks there and `iters = m - 1`, the number of completed
non-escaping iterations before the break. -/
theorem c1_worker_iteration (s : Settings) (pt : Point) (i j : ℕ)
    (hX : pt.X = (i : ℚ)) (hY : pt.Y = (j : ℚ))
    (hi : (i : ℚ) < s.Width) (hj : (j : ℚ) < s.Height)
    (hN : 1 ≤ s.MaxIterations) :
    workerX0 pt s = (i : ℚ) * (s.Max - s.Min) / s.Width + s.Min - s.Center.X ∧
    workerY0 pt s = (j : ℚ) * (s.Max - s.Min) / s.Height + s.Min - s.Center.Y ∧
    ((∀ k : ℕ, 1 ≤ k → k ≤ s.MaxIterations.toNat →
        ¬ escapes (mandelOrbit (workerX0 pt s) (workerY0 pt s) k)) →
      workerIters pt s = s.MaxIterations) ∧
    (∀ m : ℕ, 1 ≤ m → m ≤ s.MaxIterations.toNat →
      escapes (mandelOrbit (workerX0 pt s) (workerY0 pt s) m) →
      (∀ k : ℕ, 1 ≤ k → k < m →
        ¬ escapes (mandelOrbit (workerX0 pt s) (workerY0 pt s) k)) →
      workerIters pt s = (m : ℤ) - 1) := by
  have hO0 : mandelOrbit (workerX0 pt s) (workerY0 pt s) 0
      = (workerX0 pt s, workerY0 pt s) := rfl
  refine ⟨?_, ?_, ?_, ?_⟩
  · rw [workerX0, mapToRange, hX]; ring
  · rw [workerY0, mapToRange, hY]; ring
  · intro hno
    have h := mandelLoop_no_escape (workerX0 pt s) (workerY0 pt s)
      s.MaxIterations.toNat 0 0 (fun k hk1 hk2 => hno k (by omega) (by omega))
    rw [hO0] at h
    rw [workerIters, workerLoop, h, zero_add,
      Int.toNat_of_nonneg (by omega : (0 : ℤ) ≤ s.MaxIterations)]
  · intro m hm1 hm2 hesc hmin
    have h := mandelLoop_escape (workerX0 pt s) (workerY0 pt s)
      s.MaxIterations.toNat 0 0 m (by omega) (by omega) hesc
      (fun k hk1 hk2 => hmin k (by omega) hk2)
    rw [hO0] at h
    rw [workerIters, workerLoop, h]
    push_cast
    ring

/-- C1, witness: the one-pixel, one-iteration configuration
`unitSettings`: the orbit of pixel `(0, 0)` stays at the origin, never
passes the break test, so `iters` equals `MaxIterations`. -/
theorem c1_witness : workerIters pt0 unitSettings = unitSettings.MaxIterations := by
  have h := c1_worker_iteration unitSettings pt0 0 0 (by simp [pt0])
    (by simp [pt0]) (by norm_num [unitSettings]) (by norm_num [unitSettings])
    (by norm_num [unitSettings])
  refine h.2.2.1 ?_
  intro k hk1 hk2
  have hk : k = 1 := by
    have h1 : unitSettings.MaxIterations.toNat = 1 := rfl
    omega
  subst hk
  norm_num [mandelOrbit, Function.iterate_one, mandelStep, escapes,
    workerX0, workerY0, mapToRange, pt0, unitSettings]

/-- On a nonnegative value, Go's truncation toward zero is the floor. -/
theorem goInt_eq_floor (q : ℚ) (hq : 0 ≤ q) : goInt q = ⌊q⌋ := by
  rw [goInt, Rat.floor_def]
  exact Int.tdiv_eq_ediv (Rat.num_nonneg.mpr hq) (by positivity)

/-- Truncating a natural number read as a `float64` gives it back. -/
theorem goInt_natCast (n : ℕ) : goInt (n : ℚ) = n := by
  rw [goInt_eq_floor _ (by positivity)]
  exact Int.floor_natCast n

/-- On a nonnegative real, the truncation toward zero is the floor. -/
theorem goIntR_eq_floor (x : ℝ) (hx : 0 ≤ x) : goIntR x = ⌊x⌋ :=
  if_neg (not_lt.mpr hx)

/-- C4: whenever the iteration count reaches `MaxIterations`, or the
normalized level `mapToRange(iters, 0, MaxIterations, 0, 255)` is below
20, the evaluator's output colour is `(0, 0, 0)`: the level is floored to
`0` and all three channel remaps send `0` to `0`. -/
theorem c4_color_floor (pt : Point) (s : Settings) (hN : 1 ≤ s.MaxIterations)
    (h : workerIters pt s = s.MaxIterations ∨
      mapToRange ((workerIters pt s : ℚ)) 0 ((s.MaxIterations : ℚ)) 0 255 < 20) :
    (mandelbrotWorker pt s).Red = 0 ∧ (mandelbrotWorker pt s).Green = 0 ∧
      (mandelbrotWorker pt s).Blue = 0 := by
  have hcol : workerCol pt s = 0 := by
    unfold workerCol
    exact if_pos h
  have hred : channelRed 0 = 0 := by norm_num [channelRed, mapToRange]
  have hgreen : channelGreen 0 = 0 := by norm_num [channelGreen, mapToRange]
  have hblue : channelBlue 0 = 0 := by
    rw [channelBlue, mapToRangeR]
    norm_num
  refine ⟨?_, ?_, ?_⟩
  · show goUint8 (channelRed (workerCol pt s)) = 0
    rw [hcol, hred, goUint8, goInt_eq_floor 0 le_rfl]
    norm_num
  · show goUint8 (channelGreen (workerCol pt s)) = 0
    rw [hcol, hgreen, goUint8, goInt_eq_floor 0 le_rfl]
    norm_num
  · show goUint8R (channelBlue (workerCol pt s)) = 0
    rw [hcol, hblue, goUint8R, goIntR_eq_floor 0 le_rfl]
    norm_num

/-- C4, witness: on `unitSettings` the pixel `(0, 0)` never escapes, so
`iters = MaxIterations` and the colour is black. -/
theorem c4_witness :
    (mandelbrotWorker pt0 unitSettings).Red = 0 ∧
    (mandelbrotWorker pt0 unitSettings).Green = 0 ∧
    (mandelbrotWorker pt0 unitSettings).Blue = 0 := by
  refine c4_color_floor pt0 unitSettings (by norm_num [unitSettings]) (Or.inl ?_)
  norm_num [workerIters, workerLoop, mandelLoop, mandelStep,
    workerX0, workerY0, mapToRange, pt0, unitSettings]

/-- The pairs `(in_min, in_max)` of the five `mapToRange` calls
`mandelbrotWorker` makes over `ℚ`, in source order (lines 348, 349, 371,
376, 377); the sixth call (line 378) has `(0, Real.sqrt 255)` over `ℝ`. -/
def workerMapCalls (pt : Point) (s : Settings) : List (ℚ × ℚ) :=
  [(0, s.Width), (0, s.Height), (0, (s.MaxIterations : ℚ)),
   (0, 255 * 255), (0, ((255 / 2 : ℤ) : ℚ))]

/-- C7: under the invariant every `mapToRange` call the evaluator makes
has `in_max` distinct from `in_min`, so the division in `mapToRange`
never divides by zero: the pixel maps divide by `Width` and `Height`
(both at least 1), the level map by `MaxIterations` (at least 1), and the
channel maps by the nonzero constants `255*255`, `255/2` and
`sqrt 255`. -/
theorem c7_no_zero_denominator (pt : Point) (s : Settings)
    (hMinMax : s.Min < s.Max) (hN : 1 ≤ s.MaxIterations)
    (hw : 1 ≤ s.Width) (hh : 1 ≤ s.Height) :
    (∀ p ∈ workerMapCalls pt s, p.2 - p.1 ≠ 0) ∧
      Real.sqrt 255 - 0 ≠ 0 := by
  constructor
  · intro p hp
    have hw0 : (0 : ℚ) < s.Width := lt_of_lt_of_le one_pos hw
    have hh0 : (0 : ℚ) < s.Height := lt_of_lt_of_le one_pos hh
    have hN0 : (0 : ℚ) < (s.MaxIterations : ℚ) := by
      exact_mod_cast lt_of_lt_of_le one_pos hN
    simp only [workerMapCalls, List.mem_cons, List.not_mem_nil, or_false] at hp
    rcases hp with rfl | rfl | rfl | rfl | rfl <;> simp <;>
      first
        | exact hw0.ne'
        | exact hh0.ne'
        | exact hN0.ne'
        | omega
        | norm_num
  · simpa using (Real.sqrt_pos.mpr (by norm_num : (0 : ℝ) < 255)).ne'

/-- C7, witness: the default configuration satisfies the invariant, so
none of the evaluator's `mapToRange` calls can divide by zero there. -/
theorem c7_witness :
    (∀ p ∈ workerMapCalls pt0 defaultSettings, p.2 - p.1 ≠ 0) ∧
      Real.sqrt 255 - 0 ≠ 0 :=
  c7_no_zero_denominator pt0 defaultSettings (by norm_num [defaultSettings])
    (by norm_num [defaultSettings]) (by norm_num [defaultSettings])
    (by norm_num [defaultSettings])

/-- C8, counterexample: the green remap does not yield 255 at level 255.
Go evaluates the untyped constant `255/2` with integer division, so the
green call is `mapToRange(col/2, 0, 127, 0, 255)`; at level 255 its value
is `(255/2)*255/127 = 65025/254`, truncation gives 256, which overflows
`uint8` and wraps to 0. -/
theorem c8_counterexample : goUint8 (channelGreen 255) ≠ 255 := by
  have h : channelGreen 255 = 65025 / 254 := by
    norm_num [channelGreen, mapToRange]
  rw [goUint8, h, goInt_eq_floor _ (by norm_num)]
  norm_num

/-- C8, amended: at level 255 the red and blue remaps yield 255 after
truncation, but the green remap yields `65025/254` (Go's `255/2` is the
integer 127), whose truncation 256 wraps to 0 in the `uint8` conversion;
at level 0 all three channels are 0. -/
theorem c8_channel_remaps :
    goUint8 (channelRed 255) = 255 ∧ goUint8 (channelGreen 255) = 0 ∧
    goUint8R (channelBlue 255) = 255 ∧
    goUint8 (channelRed 0) = 0 ∧ goUint8 (channelGreen 0) = 0 ∧
    goUint8R (channelBlue 0) = 0 := by
  have hs : Real.sqrt 255 ≠ 0 := (Real.sqrt_pos.mpr (by norm_num)).ne'
  refine ⟨?_, ?_, ?_, ?_, ?_, ?_⟩
  · have h : channelRed 255 = 255 := by norm_num [channelRed, mapToRange]
    rw [goUint8, h, goInt_eq_floor _ (by norm_num)]
    norm_num
  · have h : channelGreen 255 = 65025 / 254 := by
      norm_num [channelGreen, mapToRange]
    rw [goUint8, h, goInt_eq_floor _ (by norm_num)]
    norm_num
  · have h : channelBlue 255 = 255 := by
      rw [channelBlue, mapToRangeR]
      push_cast
      simp only [sub_zero, add_zero]
      rw [mul_comm, mul_div_assoc, div_self hs, mul_one]
    rw [goUint8R, h, goIntR_eq_floor _ (by norm_num)]
    norm_num
  · have h : channelRed 0 = 0 := by norm_num [channelRed, mapToRange]
    rw [goUint8, h, goInt_eq_floor 0 le_rfl]
    norm_num
  · have h : channelGreen 0 = 0 := by norm_num [channelGreen, mapToRange]
    rw [goUint8, h, goInt_eq_floor 0 le_rfl]
    norm_num
  · have h : channelBlue 0 = 0 := by
      rw [channelBlue, mapToRangeR]
      norm_num
    rw [goUint8R, h, goIntR_eq_floor 0 le_rfl]
    norm_num

/-- Reading a list at an index a `set` did not touch sees the old list. -/
theorem setRead_ne {α : Type} (l : List α) (i j : ℕ) (a : α) (hij : i ≠ j) :
    (l.set i a)[j]? = l[j]? := by
  rw [List.getElem?_set, if_neg hij]

/-- Reading a list at an in-bounds index a `set` wrote sees the new
value. -/
theorem setRead_eq {α : Type} (l : List α) (i : ℕ) (a : α) (hi : i < l.length) :
    (l.set i a)[i]? = some a := by
  rw [List.getElem?_set, if_pos rfl, if_pos hi]

/-- C9: for an in-range point, `DrawPoint` writes exactly the four bytes
at the row-major offset `y*width*4 + x*4` - red, green, blue, then alpha
fixed at 255, in that order - and leaves every other byte of `Pixels`
unchanged (and the buffer length unchanged). -/
theorem c9_drawPoint_writes_four_bytes (mi : MandelbrotImage) (p : Point)
    (w h x y : ℕ)
    (hw : mi.Width = (w : ℚ)) (hx : p.X = (x : ℚ)) (hy : p.Y = (y : ℚ))
    (hxw : x < w) (hyh : y < h) (hlen : mi.Pixels.length = w * h * 4) :
    (DrawPoint mi p).Pixels.length = mi.Pixels.length ∧
    (DrawPoint mi p).Pixels[y * w * 4 + x * 4]? = some p.Red ∧
    (DrawPoint mi p).Pixels[y * w * 4 + x * 4 + 1]? = some p.Green ∧
    (DrawPoint mi p).Pixels[y * w * 4 + x * 4 + 2]? = some p.Blue ∧
    (DrawPoint mi p).Pixels[y * w * 4 + x * 4 + 3]? = some 255 ∧
    (∀ k : ℕ, k < y * w * 4 + x * 4 ∨ y * w * 4 + x * 4 + 3 < k →
      (DrawPoint mi p).Pixels[k]? = mi.Pixels[k]?) := by
  have hidx : (goInt p.Y * goInt mi.Width * 4 + goInt p.X * 4).toNat
      = y * w * 4 + x * 4 := by
    rw [hx, hy, hw]
    simp only [goInt_natCast]
    have hc : ((y : ℤ) * (w : ℤ) * 4 + (x : ℤ) * 4)
        = ((y * w * 4 + x * 4 : ℕ) : ℤ) := by push_cast; ring
    rw [hc, Int.toNat_natCast]
  have hb : y * w * 4 + x * 4 + 3 < mi.Pixels.length := by
    rw [hlen]
    have h1 : y * w + x + 1 ≤ h * w := by
      calc y * w + x + 1 ≤ y * w + w := by omega
        _ = (y + 1) * w := by ring
        _ ≤ h * w := Nat.mul_le_mul (by omega) le_rfl
    nlinarith [h1]
  set N := y * w * 4 + x * 4 with hNdef
  have hpix : (DrawPoint mi p).Pixels
      = (((mi.Pixels.set N p.Red).set (N + 1) p.Green).set
          (N + 2) p.Blue).set (N + 3) 255 := by
    simp only [DrawPoint]
    rw [hidx]
  refine ⟨?_, ?_, ?_, ?_, ?_, ?_⟩
  · rw [hpix]
    simp [List.length_set]
  · rw [hpix, setRead_ne _ _ _ _ (by omega), setRead_ne _ _ _ _ (by omega),
      setRead_ne _ _ _ _ (by omega)]
    exact setRead_eq _ _ _ (by omega)
  · rw [hpix, setRead_ne _ _ _ _ (by omega), setRead_ne _ _ _ _ (by omega)]
    exact setRead_eq _ _ _ (by rw [List.length_set]; omega)
  · rw [hpix, setRead_ne _ _ _ _ (by omega)]
    exact setRead_eq _ _ _ (by rw [List.length_set, List.length_set]; omega)
  · rw [hpix]
    exact setRead_eq _ _ _
      (by rw [List.length_set, List.length_set, List.length_set]; omega)
  · intro k hk
    rw [hpix, setRead_ne _ _ _ _ (by omega), setRead_ne _ _ _ _ (by omega),
      setRead_ne _ _ _ _ (by omega), setRead_ne _ _ _ _ (by omega)]

/-- A one-pixel framebuffer with sentinel contents, for instantiating the
`DrawPoint` theorem. -/
def miW : MandelbrotImage :=
  { Width := 1, Height := 1, Pixels := [7, 7, 7, 7], settings := unitSettings }

/-- A point with distinct channel values, for the same instantiation. -/
def ptW : Point := { X := 0, Y := 0, Red := 1, Green := 2, Blue := 3 }

/-- C9, witness: drawing the point `(0, 0)` on the one-pixel framebuffer
writes its four bytes at offset 0. -/
theorem c9_witness :
    (DrawPoint miW ptW).Pixels.length = miW.Pixels.length ∧
    (DrawPoint miW ptW).Pixels[0 * 1 * 4 + 0 * 4]? = some ptW.Red ∧
    (DrawPoint miW ptW).Pixels[0 * 1 * 4 + 0 * 4 + 1]? = some ptW.Green ∧
    (DrawPoint miW ptW).Pixels[0 * 1 * 4 + 0 * 4 + 2]? = some ptW.Blue ∧
    (DrawPoint miW ptW).Pixels[0 * 1 * 4 + 0 * 4 + 3]? = some 255 ∧
    (∀ k : ℕ, k < 0 * 1 * 4 + 0 * 4 ∨ 0 * 1 * 4 + 0 * 4 + 3 < k →
      (DrawPoint miW ptW).Pixels[k]? = miW.Pixels[k]?) :=
  c9_drawPoint_writes_four_bytes miW ptW 1 1 0 0 (by norm_num [miW])
    (by norm_num [ptW]) (by norm_num [ptW]) (by norm_num) (by norm_num)
    (by norm_num [miW])

/-- Setting a cell of an all-zero list to zero changes nothing. -/
theorem set_zero_replicate (n k : ℕ) :
    (List.replicate n (0 : ℤ)).set k 0 = List.replicate n 0 := by
  apply List.ext_getElem?
  intro m
  rw [List.getElem?_set]
  by_cases hmk : k = m
  · subst hmk
    simp [List.length_replicate, List.getElem?_replicate]
  · rw [if_neg hmk]

/-- The `Init` loop maps an all-zero buffer to itself, whatever the
bounds. -/
theorem initLoop_replicate (n gas : ℕ) :
    ∀ (i bound : ℕ), bound - i ≤ gas →
      initLoop (List.replicate n (0 : ℤ)) i bound = List.replicate n 0 := by
  induction gas with
  | zero =>
    intro i bound hgas
    rw [initLoop, if_neg (by omega)]
  | succ g ih =>
    intro i bound hgas
    rw [initLoop]
    by_cases hib : i < bound
    · rw [if_pos hib, set_zero_replicate, set_zero_replicate,
        set_zero_replicate, set_zero_replicate]
      exact ih (i + 4) bound (by omega)
    · rw [if_neg hib]

/-- C10: `NewMandelbrotImage` allocates a `Pixels` buffer of length
`int(width*height*4)` with every byte zero; `Init` preserves the all-zero
state although its loop only touches the indices `0, 4, 8, ...` below
`uint64(width*height)` (with the three following bytes each) - one
quarter of the buffer - and every index that loop writes, `i` through
`i + 3` for `i < width*height`, is within bounds. -/
theorem c10_new_image_zeroed (w h : ℕ) (s : Settings)
    (hw : 1 ≤ w) (hh : 1 ≤ h) :
    (NewMandelbrotImage ((w : ℕ) : ℚ) ((h : ℕ) : ℚ) s).Pixels.length
      = w * h * 4 ∧
    (∀ k : ℕ, k < w * h * 4 →
      (NewMandelbrotImage ((w : ℕ) : ℚ) ((h : ℕ) : ℚ) s).Pixels[k]? = some 0) ∧
    (NewMandelbrotImage ((w : ℕ) : ℚ) ((h : ℕ) : ℚ) s).Init.Pixels
      = (NewMandelbrotImage ((w : ℕ) : ℚ) ((h : ℕ) : ℚ) s).Pixels ∧
    (∀ i : ℕ, i % 4 = 0 → i < w * h → i + 3 < w * h * 4) := by
  have hlen4 : goInt ((w : ℚ) * (h : ℚ) * 4) = ((w * h * 4 : ℕ) : ℤ) := by
    have hc : ((w : ℚ) * (h : ℚ) * 4) = ((w * h * 4 : ℕ) : ℚ) := by
      push_cast; ring
    rw [hc, goInt_natCast]
  have hlen2 : goInt ((w : ℚ) * (h : ℚ)) = ((w * h : ℕ) : ℤ) := by
    have hc : ((w : ℚ) * (h : ℚ)) = ((w * h : ℕ) : ℚ) := by push_cast; ring
    rw [hc, goInt_natCast]
  have hpix : (NewMandelbrotImage ((w : ℕ) : ℚ) ((h : ℕ) : ℚ) s).Pixels
      = List.replicate (w * h * 4) 0 := by
    show List.replicate (goInt ((w : ℚ) * (h : ℚ) * 4)).toNat 0 = _
    rw [hlen4, Int.toNat_natCast]
  refine ⟨?_, ?_, ?_, ?_⟩
  · rw [hpix, List.length_replicate]
  · intro k hk
    rw [hpix, List.getElem?_replicate, if_pos hk]
  · have hini : (NewMandelbrotImage ((w : ℕ) : ℚ) ((h : ℕ) : ℚ) s).Init.Pixels
        = initLoop (List.replicate (w * h * 4) 0) 0 (w * h) := by
      show initLoop (NewMandelbrotImage ((w : ℕ) : ℚ) ((h : ℕ) : ℚ) s).Pixels 0
          (goInt ((w : ℚ) * (h : ℚ))).toNat = _
      rw [hpix, hlen2, Int.toNat_natCast]
    rw [hini, hpix]
    exact initLoop_replicate (w * h * 4) (w * h) 0 (w * h) (by simp)
  · intro i h4 hi
    have hwh : 1 ≤ w * h := Nat.mul_le_mul hw hh
    nlinarith [hi, hwh]

/-- C10, witness: the one-pixel framebuffer - a 4-byte buffer, all zero,
and `Init` leaves it so. -/
theorem c10_witness :
    (NewMandelbrotImage ((1 : ℕ) : ℚ) ((1 : ℕ) : ℚ) unitSettings).Pixels.length
      = 1 * 1 * 4 ∧
    (∀ k : ℕ, k < 1 * 1 * 4 →
      (NewMandelbrotImage ((1 : ℕ) : ℚ) ((1 : ℕ) : ℚ)
        unitSettings).Pixels[k]? = some 0) ∧
    (NewMandelbrotImage ((1 : ℕ) : ℚ) ((1 : ℕ) : ℚ) unitSettings).Init.Pixels
      = (NewMandelbrotImage ((1 : ℕ) : ℚ) ((1 : ℕ) : ℚ) unitSettings).Pixels ∧
    (∀ i : ℕ, i % 4 = 0 → i < 1 * 1 → i + 3 < 1 * 1 * 4) :=
  c10_new_image_zeroed 1 1 unitSettings le_rfl le_rfl

end Mandelbrot
